import Mathlib

/-!
Verification of the mux process multiplexer.

This file embeds, in Lean 4, the parts of the mux source tree that the
specification's claims exercise, and proves (or refutes) each claim
against the embedding.

Conventions of the embedding:
* Rust `u8` bytes are `Nat` values (< 256 on all inputs we construct);
* `bytes::BytesMut` buffers are `List Nat`;
* fallible Rust code (`Result<_, failure::Error>`) is `Except`;
* `futures::AsyncSink` / `futures::Async` are small inductives;
* external crates (tokio codec framing driver, `FuturesUnordered`,
  `unicode-width`, termion events) are modelled as capability contracts,
  documented at each definition;
* modules of the repository that are declared but whose sources are not
  present (`grid.rs`, `index.rs`, `selection.rs`, `ansi.rs`, `term/cell.rs`)
  are modelled from the specification; their doc comments say so.
-/

/-! ## C1 — delimiter codec (src/src/args/delimiter.rs) -/

namespace Delimiter

/-- State of `DelimiterCodec`: the configured delimiter (`None` meaning any
ASCII whitespace byte) and `next_index`, the offset already scanned without
finding a delimiter. -/
structure DelimiterCodec where
  delimiter : Option Nat
  next_index : Nat
  deriving DecidableEq

/-- Rust `u8::is_ascii_whitespace`: space, horizontal tab, line feed,
form feed, carriage return. -/
def u8IsAsciiWhitespace (b : Nat) : Bool :=
  b == 0x20 || b == 0x09 || b == 0x0A || b == 0x0C || b == 0x0D

/-- The byte predicate the codec searches with: `memchr` for a configured
delimiter, `is_ascii_whitespace` otherwise (delimiter.rs lines 21-26). -/
def isDelimByte (delimiter : Option Nat) (b : Nat) : Bool :=
  match delimiter with
  | some d => b == d
  | none => u8IsAsciiWhitespace b

/-- Offset of the first byte satisfying `p` (models `memchr::memchr` /
`Iterator::position` over a byte slice). -/
def findOffset (p : Nat → Bool) : List Nat → Option Nat
  | [] => none
  | b :: bs => if p b then some 0 else (findOffset p bs).map (· + 1)

/-- `DelimiterCodec::decode` (delimiter.rs lines 20-45).  Searches from
`next_index`; on a hit, splits off the bytes up to and including the
delimiter, drops the delimiter, and emits the slice iff non-empty; on a
miss records the scanned length and asks for more bytes.  Returns the new
codec state, the remaining buffer, and the emitted frame, if any. -/
def decode (c : DelimiterCodec) (src : List Nat) :
    DelimiterCodec × List Nat × Option (List Nat) :=
  match findOffset (isDelimByte c.delimiter) (src.drop c.next_index) with
  | some offset =>
    let delimiter_index := offset + c.next_index
    let bytes := src.take delimiter_index
    let rest := src.drop (delimiter_index + 1)
    if bytes.isEmpty then (⟨c.delimiter, 0⟩, rest, none)
    else (⟨c.delimiter, 0⟩, rest, some bytes)
  | none => (⟨c.delimiter, src.length⟩, src, none)

/-- `DelimiterCodec::decode_eof` (delimiter.rs lines 47-61): first try
`decode`; if it produced nothing and the buffer is non-empty, flush the
whole remaining buffer as a final frame. -/
def decode_eof (c : DelimiterCodec) (src : List Nat) :
    DelimiterCodec × List Nat × Option (List Nat) :=
  match decode c src with
  | (c1, rest, some frame) => (c1, rest, some frame)
  | (c1, rest, none) =>
    if rest.isEmpty then (c1, rest, none)
    else (⟨c1.delimiter, 0⟩, [], some rest)

/-- Capability model of `tokio::codec::FramedRead` between two reads: call
`decode` repeatedly, collecting frames, until it returns `None` (at which
point the framer reads more bytes).  `fuel` bounds the recursion; each
emitted frame consumes at least one buffer byte, so `src.length + 1` fuel
is always enough. -/
def decodeAvail (fuel : Nat) (c : DelimiterCodec) (src : List Nat) :
    DelimiterCodec × List Nat × List (List Nat) :=
  match fuel with
  | 0 => (c, src, [])
  | fuel + 1 =>
    match decode c src with
    | (c1, rest, none) => (c1, rest, [])
    | (c1, rest, some frame) =>
      let (c2, rest2, frames) := decodeAvail fuel c1 rest
      (c2, rest2, frame :: frames)

/-- Capability model of `FramedRead` at end of input: call `decode_eof`
repeatedly until it returns `None`. -/
def decodeEofAll (fuel : Nat) (c : DelimiterCodec) (src : List Nat) :
    List (List Nat) :=
  match fuel with
  | 0 => []
  | fuel + 1 =>
    match decode_eof c src with
    | (_, _, none) => []
    | (c1, rest, some frame) => frame :: decodeEofAll fuel c1 rest

/-- One chunk arriving from the underlying reader: append it to the buffer
and drain the available frames. -/
def feedChunk (st : DelimiterCodec × List Nat × List (List Nat)) (chunk : List Nat) :
    DelimiterCodec × List Nat × List (List Nat) :=
  let (c, buf, acc) := st
  let buf2 := buf ++ chunk
  let (c2, buf3, frames) := decodeAvail (buf2.length + 1) c buf2
  (c2, buf3, acc ++ frames)

/-- A complete run of the framed delimiter codec over an input byte stream
delivered as `chunks`, followed by end of input: the list of all tokens
emitted by `decode` and `decode_eof`. -/
def framedRun (delimiter : Option Nat) (chunks : List (List Nat)) : List (List Nat) :=
  let (c, buf, acc) := chunks.foldl feedChunk (⟨delimiter, 0⟩, [], [])
  acc ++ decodeEofAll (buf.length + 1) c buf

end Delimiter

/-! ## C8 — argument template expansion (src/src/args/mod.rs) -/

namespace ArgsMod

/-- Rust `slice::split` semantics: split a list on elements satisfying `p`;
separators are dropped, empty segments (leading, trailing, between two
adjacent separators) are kept.  Used by `parse_arg_template`. -/
def splitParts (p : String → Bool) : List String → List (List String)
  | [] => [[]]
  | a :: as =>
    if p a then [] :: splitParts p as
    else
      match splitParts p as with
      | s :: ss => (a :: s) :: ss
      | [] => [[a]]

/-- The placeholder a template part is compared against:
`replace.as_ref().map_or_else(|| part == "{}", |s| part == s)`
(args/mod.rs line 59). -/
def placeholder (replace : Option String) : String :=
  replace.getD "\x7b\x7d"

/-- `parse_arg_template` (args/mod.rs lines 57-62): split the initial
arguments on the placeholder. -/
def parse_arg_template (initial_args : List String) (replace : Option String) :
    List (List String) :=
  splitParts (fun part => part == placeholder replace) initial_args

/-- `generate_final_args` (args/mod.rs lines 35-45), the `all` component:
a single segment gets the token appended; otherwise the segments are
joined with the token as separator (`Vec::join`). -/
def generate_final_args (arg : String) (command_parts : List (List String)) :
    List String :=
  if command_parts.length == 1 then command_parts.headD [] ++ [arg]
  else List.intercalate [arg] command_parts

end ArgsMod

/-! ## C3 — stream multiplexer `SelectAll` (src/src/streams.rs) -/

namespace Streams

/-- Result of one `SelectAll::poll` in the pure model: either the next item
(`some item`) or end of stream / "done" (`none`).  `NotReady` does not arise
in the pure model because a stream of pure values is always ready. -/
def PollResult (α : Type) := Option α

/-- Capability model of `futures::stream::FuturesUnordered` holding
`StreamFuture`s: the set is a list of member streams, each a list of its
remaining items (`[]` = exhausted).  `poll` with schedule `k` reports the
completion of member `k % length`: a `StreamFuture` of `x :: rest`
completes with `(Some x, rest)` and one of `[]` completes with
`(None, [])`; the completed future leaves the set.  Returns `none` when
the set is empty (`Async::Ready(None)`). -/
def futuresUnorderedPoll (k : Nat) (members : List (List α)) :
    Option ((Option α × List α) × List (List α)) :=
  match members with
  | [] => none
  | _ :: _ =>
    let i := k % members.length
    let s := members.getD i []
    let others := members.take i ++ members.drop (i + 1)
    match s with
    | [] => some ((none, []), others)
    | x :: rest => some ((some x, rest), others)

/-- `SelectAll::push` (streams.rs lines 59-61): submit a stream to the set. -/
def SelectAll.push (members : List (List α)) (stream : List α) : List (List α) :=
  members ++ [stream]

/-- `SelectAll::poll` (streams.rs lines 68-77) under schedule `k`:
`Ready(Some((Some(item), remaining)))` re-enrolls `remaining` and yields the
item; every other ready outcome — including `Ready(Some((None, remaining)))`,
a member stream that merely ended — falls into the `Ready(_)` arm and
reports the whole multiplexer as done.  Returns the new member set and the
poll result. -/
def SelectAll.poll (k : Nat) (members : List (List α)) :
    List (List α) × PollResult α :=
  match futuresUnorderedPoll k members with
  | none => (members, none)
  | some ((some item, remaining), others) =>
    (SelectAll.push others remaining, some item)
  | some ((none, _), others) => (others, none)

end Streams

/-! ## C5 — fanout sink (src/src/fanout.rs, module `sinks` of main.rs) -/

namespace Sinks

/-- `futures::AsyncSink`: `start_send` either accepted the item (`ready`)
or handed it back (`notReady item`). -/
inductive AsyncSink (α : Type) where
  | ready
  | notReady (item : α)
  deriving DecidableEq

/-- Capability contract of a downstream `futures::sink::Sink`: its internal
state has type `σ`, and `start_send` may fail with an error of type `ε`.
The `Fanout` code is generic over this interface. -/
structure SinkImpl (σ α ε : Type) where
  start_send : σ → α → Except ε (σ × AsyncSink α)

/-- `Downstream` (fanout.rs lines 66-73): a sink together with the
`AsyncSink` state left by the last `start_send` on it. -/
structure Downstream (σ α : Type) where
  sink : σ
  state : AsyncSink α

/-- `Downstream::is_ready` (fanout.rs lines 86-88). -/
def Downstream.is_ready (d : Downstream σ α) : Bool :=
  match d.state with
  | .ready => true
  | .notReady _ => false

/-- `Downstream::keep_flushing` (fanout.rs lines 90-97): if the previous
item is still pending, offer it to the sink again and record the outcome. -/
def Downstream.keep_flushing (impl : SinkImpl σ α ε) (d : Downstream σ α) :
    Except ε (Downstream σ α) :=
  match d.state with
  | .notReady item => do
    let (s, st) ← impl.start_send d.sink item
    pure ⟨s, st⟩
  | .ready => pure d

/-- `Fanout` (fanout.rs lines 3-8). -/
structure Fanout (σ α : Type) where
  downstreams : List (Downstream σ α)

/-- `Fanout::start_send` (fanout.rs lines 29-45): first let every
downstream retry its pending item; if all are then ready, `start_send` a
clone of the item to each, recording its new state, and report `Ready`;
otherwise report `NotReady(item)`.  An error from any downstream aborts
with that error (in Rust the partially-updated `self` is retained but
never observed through the `Err` return). -/
def Fanout.start_send (impl : SinkImpl σ α ε) (f : Fanout σ α) (item : α) :
    Except ε (Fanout σ α × AsyncSink α) := do
  let ds ← f.downstreams.mapM (Downstream.keep_flushing impl)
  if ds.all Downstream.is_ready then
    let ds2 ← ds.mapM (fun d => do
      let (s, st) ← impl.start_send d.sink item
      pure (⟨s, st⟩ : Downstream σ α))
    pure (⟨ds2⟩, .ready)
  else
    pure (⟨ds⟩, .notReady item)

/-- A traced sink: the universal deterministic downstream.  Its state is
the list of items it has accepted so far, and `accept` decides, from that
history, whether the next offer is taken.  `start_send` appends the item
on acceptance and hands it back otherwise; it never errors. -/
def tracedImpl (accept : List α → α → Bool) : SinkImpl (List α) α ε :=
  ⟨fun trace item =>
    .ok (if accept trace item then (trace ++ [item], .ready)
         else (trace, .notReady item))⟩

/-- Step (1) of the spec's fanout protocol, for a traced downstream:
a downstream in a `NotReady(prev)` state offers `prev` again. -/
def retryOne (accept : List α → α → Bool) (d : Downstream (List α) α) :
    Downstream (List α) α :=
  match d.state with
  | .ready => d
  | .notReady prev =>
    if accept d.sink prev then ⟨d.sink ++ [prev], .ready⟩
    else ⟨d.sink, .notReady prev⟩

/-- Step (2) of the spec's fanout protocol, for a traced downstream:
`start_send(clone(x))`, recording the new state. -/
def sendOne (accept : List α → α → Bool) (x : α) (d : Downstream (List α) α) :
    Downstream (List α) α :=
  if accept d.sink x then ⟨d.sink ++ [x], .ready⟩
  else ⟨d.sink, .notReady x⟩

end Sinks

/-! ## C4 — per-child PTY endpoints (src/src/process.rs) -/

namespace Proc

/-- Model of `std::io::Error`: an `ErrorKind` plus the raw OS errno, if
any (`io::Error::raw_os_error`). -/
inductive ErrorKind where
  | brokenPipe
  | other (code : Nat)
  deriving DecidableEq

structure IoError where
  kind : ErrorKind
  raw_os : Option Int
  deriving DecidableEq

/-- Model of `failure::Error` as it is produced in process.rs: always a
converted I/O error. -/
inductive Failure where
  | fromIo (e : IoError)
  deriving DecidableEq

/-- `futures::Async<()>` for `poll_complete`. -/
inductive AsyncUnit where
  | ready
  | notReady
  deriving DecidableEq

/-- `futures::Async<Option<β>>` for `Stream::poll`: `ready none` is end of
stream. -/
inductive PollRes (β : Type) where
  | notReady
  | ready (item : Option β)
  deriving DecidableEq

/-- Capability contract of the underlying
`FramedWrite<WriteHalf<AsyncPtyMaster>, BytesCodec>` sink: state `σ`,
operations that may fail with an `IoError`. -/
structure SinkBeh (σ α : Type) where
  start_send : σ → α → Except IoError (σ × Sinks.AsyncSink α)
  poll_complete : σ → Except IoError (σ × AsyncUnit)

/-- Capability contract of the underlying
`FramedRead<ReadHalf<AsyncPtyMaster>, BytesCodec>` stream. -/
structure StreamBeh (σ β : Type) where
  poll : σ → Except IoError (σ × PollRes β)

/-- `Input` (process.rs lines 20-27): `sink: Option<FramedWrite<..>>`;
`none` is the silently-accepting terminal state. -/
def InputState (σ : Type) := Option σ

/-- `impl Sink for Input`, `start_send` (process.rs lines 123-140): with a
live sink, forward; on a `BrokenPipe` error drop the sink and report
`Ready`; any other error propagates.  With no sink, report `Ready`. -/
def Input.start_send (beh : SinkBeh σ α) (inp : InputState σ) (item : α) :
    Except Failure (InputState σ × Sinks.AsyncSink α) :=
  match inp with
  | some s =>
    match beh.start_send s item with
    | .ok (s2, r) => .ok (some s2, r)
    | .error e =>
      if e.kind == .brokenPipe then .ok (none, .ready)
      else .error (.fromIo e)
  | none => .ok (none, .ready)

/-- `impl Sink for Input`, `poll_complete` (process.rs lines 142-156):
same broken-pipe absorption. -/
def Input.poll_complete (beh : SinkBeh σ α) (inp : InputState σ) :
    Except Failure (InputState σ × AsyncUnit) :=
  match inp with
  | some s =>
    match beh.poll_complete s with
    | .ok (s2, r) => .ok (some s2, r)
    | .error e =>
      if e.kind == .brokenPipe then .ok (none, .ready)
      else .error (.fromIo e)
  | none => .ok (none, .ready)

/-- `Output` (process.rs lines 29-37): `stream: Option<FramedRead<..>>`. -/
def OutputState (σ : Type) := Option σ

/-- `impl Stream for Output`, `poll` (process.rs lines 171-185): with a
live stream, forward; on an error whose raw OS errno is 5 (`EIO`) drop the
stream and report end of stream; any other error propagates.  With no
stream, report end of stream. -/
def Output.poll (beh : StreamBeh σ β) (out : OutputState σ) :
    Except Failure (OutputState σ × PollRes β) :=
  match out with
  | some s =>
    match beh.poll s with
    | .ok (s2, r) => .ok (some s2, r)
    | .error e =>
      if e.raw_os == some 5 then .ok (none, .ready none)
      else .error (.fromIo e)
  | none => .ok (none, .ready none)

end Proc

/-! ## C2, C10 — event stream and exit-code plumbing (src/src/main.rs, src/src/ui/mod.rs) -/

namespace MainMod

/-- Model of `termion::event::Key` (the constructors `read_events`
inspects, plus a catch-all). -/
inductive TKey where
  | ctrl (c : Char)
  | char (c : Char)
  | otherKey (n : Nat)
  deriving DecidableEq

/-- Model of `termion::event::Event`. -/
inductive TEvent where
  | key (k : TKey)
  | mouse (m : Nat)
  | unsupported (bs : List Nat)
  deriving DecidableEq

/-- Model of `std::process::ExitStatus` as its code; `success` is
`code == 0`. -/
def ExitStatus := Int
deriving instance DecidableEq for ExitStatus

def ExitStatus.success (s : ExitStatus) : Bool := s == (0 : Int)

/-- `ui::Event` (ui/mod.rs lines 12-19). -/
inductive Event where
  | userInput (ev : TEvent) (data : List Nat)
  | endOfUserInput
  | processOutput (idx : Nat) (data : List Nat)
  | processExit (idx : Nat) (status : ExitStatus)
  | resized
  deriving DecidableEq

/-- Model of an I/O error raised by the termion event iterator. -/
def IoErr := Nat
deriving instance DecidableEq for IoErr

/-- Model of `failure::Error` as produced on the event path. -/
inductive Failure where
  | fromIo (e : IoErr)
  deriving DecidableEq

/-- The predicate of the `take_while` in `read_events` (main.rs lines
226-229): stop (return `false`) exactly on a successfully decoded
`Ctrl('t')` key event. -/
def isCtrlT (e : Except IoErr (TEvent × List Nat)) : Bool :=
  match e with
  | .ok (.key (.ctrl c), _) => c == 't'
  | _ => false

/-- The `and_then` of `read_events` (main.rs lines 234-236): a surviving
raw item becomes a `UserInput(event, raw)` element, errors propagating as
stream errors. -/
def toUserInput (e : Except IoErr (TEvent × List Nat)) : Except Failure Event :=
  match e with
  | .ok (ev, data) => .ok (.userInput ev data)
  | .error err => .error (.fromIo err)

/-- `read_events` (main.rs lines 215-238): the raw termion event iterator
(a list of fallible event/raw-bytes pairs) is cut off at the first
`Ctrl('t')` (exclusive); each surviving item is mapped through
`toUserInput`. -/
def read_events (evs : List (Except IoErr (TEvent × List Nat))) :
    List (Except Failure Event) :=
  (evs.takeWhile (fun e => !isCtrlT e)).map toUserInput

/-- The user-input spine of the event merge in `run_gui` (main.rs lines
192-197): the user-input stream chained with a single synthetic
`EndOfUserInput`.  (The `select`s interleave the other sources; the
`take_while` ends consumption at the sentinel.) -/
def userEventSpine (evs : List (Except IoErr (TEvent × List Nat))) :
    List (Except Failure Event) :=
  read_events evs ++ [.ok .endOfUserInput]

/-- Whether a stream element is a `UserInput` carrying the `Ctrl('t')` key
event. -/
def isCtrlTUserInput (e : Except Failure Event) : Bool :=
  match e with
  | .ok (.userInput (.key (.ctrl c)) _) => c == 't'
  | _ => false

/-- `ProcessState` of the UI, restricted to the field the exit-code claim
concerns (ui/mod.rs line 52): the recorded exit status.  `on_exit`
(ui/mod.rs lines 296-298) stores the status. -/
def guiStep (states : List (Option ExitStatus)) (ev : Event) :
    List (Option ExitStatus) :=
  match ev with
  | .processExit i s => states.set i (some s)
  | _ => states

/-- The event loop of `run_gui` (main.rs lines 192-213) as it affects the
recorded exit statuses: events are consumed up to (not including) the
`EndOfUserInput` sentinel, `ProcessExit(i, s)` recording `s` in view `i`.
Rendering, emulator feeding and action collection do not influence the
final value of `run_with_options`. -/
def runGuiStates (n : Nat) (events : List Event) :
    List (Option ExitStatus) :=
  (events.takeWhile (fun e => e != Event.endOfUserInput)).foldl guiStep
    (List.replicate n none)

/-- `run_with_options` (main.rs lines 88-136) as a function of the fatal
initialization outcome and the event stream: a fatal initialization error
(argument reading, spawning, tty opening, terminal creation) aborts with
the error; otherwise the GUI event loop runs — recording child exit
statuses in the per-process views — stdin is forwarded, and the function
returns `Ok(())` (main.rs line 135).  The recorded statuses are returned
here as the model's observable state; the Rust function discards them. -/
def run_with_options (initError : Option String) (n : Nat)
    (events : List Event) : Except String (List (Option ExitStatus)) :=
  match initError with
  | some e => .error e
  | none => .ok (runGuiStates n events)

/-- `main` (main.rs lines 23-31): exit code 1 when `run()` returns an
error, 0 otherwise. -/
def mainExitCode (initError : Option String) (n : Nat)
    (events : List Event) : Nat :=
  match run_with_options initError n events with
  | .ok _ => 0
  | .error _ => 1

end MainMod

/-! ## C6, C7, C9 — terminal emulator (src/terminal-emulator/src/term/mod.rs)

The `Term` methods below are translated from term/mod.rs.  The `grid`,
`index`, `selection`, `ansi` and `term/cell` modules are declared in
lib.rs but their sources are not in the tree; the types and operations
they provide are modelled from the specification (§3 data model, §4.4),
guided by how term/mod.rs calls them.  Render-only fields of `Term`
(`dirty`, `visual_bell`, `next_is_urgent`, `size_info`, cursor styles,
`dynamic_title`, `next_title`, `should_exit`) are omitted: no modelled
operation reads them. -/

namespace Emu

/-- `ansi::NamedColor` (enumerated in full by `convert_color` in
src/src/ui/mod.rs).  Modelled from the spec: ansi.rs is absent. -/
inductive NamedColor where
  | black | red | green | yellow | blue | magenta | cyan | white
  | brightBlack | brightRed | brightGreen | brightYellow
  | brightBlue | brightMagenta | brightCyan | brightWhite
  | foreground | background | cursorText | cursorColor
  | dimBlack | dimRed | dimGreen | dimYellow
  | dimBlue | dimMagenta | dimCyan | dimWhite
  | brightForeground | dimForeground
  deriving DecidableEq

/-- `ansi::Color`.  Modelled from the spec: tagged variant
`Named | Spec(rgb) | Indexed(u8)`. -/
inductive Color where
  | named (n : NamedColor)
  | spec (r g b : Nat)
  | indexed (i : Nat)
  deriving DecidableEq

/-- Cell flag bitset.  Modelled from the spec (§3 “Grid cell”):
term/cell.rs is absent.  Each bitflag is a Boolean field. -/
structure Flags where
  inverse : Bool := false
  bold : Bool := false
  italic : Bool := false
  underline : Bool := false
  wrapline : Bool := false
  wideChar : Bool := false
  wideCharSpacer : Bool := false
  dim : Bool := false
  hidden : Bool := false
  strikeout : Bool := false
  deriving DecidableEq

/-- A grid cell.  Modelled from the spec (§3 “Grid cell”): glyph, colors,
flags, and the short list of combining characters. -/
structure Cell where
  c : Char := ' '
  fg : Color := .named .foreground
  bg : Color := .named .background
  flags : Flags := {}
  extra : List Char := []
  deriving DecidableEq

/-- `Cell::push_extra`: append a zero-width combining character. -/
def Cell.push_extra (cell : Cell) (ch : Char) : Cell :=
  { cell with extra := cell.extra ++ [ch] }

/-- `Cell::reset(template)`.  Modelled from the spec (§4.4 “Clearing”:
cells are reset using the current template, so clears respect the current
background; `dectest` in term/mod.rs confirms the glyph is taken from the
template too). -/
def Cell.reset (template : Cell) : Cell :=
  { template with extra := [] }

/-- The grid.  Modelled from the spec (§3 “Grid”): grid.rs is absent.
`rows` holds the visible rows top-first, each of length `numCols`; the
claims exercise no scrollback, so the buffer coincides with the visible
region and `len() = numLines`.  `displayOffset` is the scroll-back display
offset (`Scroll::Bottom` resets it to 0). -/
structure Grid where
  numLines : Nat
  numCols : Nat
  rows : List (List Cell)
  displayOffset : Nat := 0
  deriving DecidableEq

/-- `Grid::new(lines, cols, history, template)` with a default template. -/
def Grid.new (lines cols : Nat) : Grid :=
  ⟨lines, cols, List.replicate lines (List.replicate cols {}), 0⟩

/-- `Grid::len`: total buffer lines (visible only — no scrollback in the
modelled scenarios). -/
def Grid.len (g : Grid) : Nat := g.rows.length

/-- Cell lookup at visible coordinates (line 0 = top). -/
def Grid.cellAt (g : Grid) (line col : Nat) : Cell :=
  (g.rows.getD line []).getD col {}

/-- Cell write at visible coordinates. -/
def Grid.setCell (g : Grid) (line col : Nat) (cell : Cell) : Grid :=
  { g with rows := g.rows.set line ((g.rows.getD line []).set col cell) }

/-- `grid.region_mut(..).each(|c| c.reset(template))`: reset every cell of
the grid with the template. -/
def Grid.resetAll (g : Grid) (template : Cell) : Grid :=
  { g with rows := g.rows.map (fun row => row.map (fun _ => Cell.reset template)) }

/-- `Grid::scroll_up(region, n, template)`.  Modelled from the spec
(§4.4 “Scrolling”): the rows of `[rstart, rend)` move up by `n`, the
vacated rows at the bottom of the region are reset with the template.
Scrolled-out history is not retained (the claims exercise none). -/
def Grid.scroll_up_region (g : Grid) (rstart rend n : Nat) (template : Cell) : Grid :=
  let region := (g.rows.drop rstart).take (rend - rstart)
  let fresh := List.replicate (min n (rend - rstart)) (List.replicate g.numCols (Cell.reset template))
  { g with rows := g.rows.take rstart ++ (region.drop n ++ fresh) ++ g.rows.drop rend }

/-- A point in buffer coordinates (as `index::Point<usize>`): `line 0` is
the bottom-most buffer row, growing upward.  Modelled from the spec:
index.rs is absent. -/
structure BufPoint where
  line : Nat
  col : Nat
  deriving DecidableEq

/-- Buffer-coordinate cell lookup. -/
def Grid.bufCell (g : Grid) (p : BufPoint) : Cell :=
  (g.rows.getD (g.len - 1 - p.line) []).getD p.col {}

/-- `BidirectionalIterator::prev` of `grid.iter_from`: step one cell
backwards in reading order (modelled from the spec; grid.rs absent). -/
def Grid.iterPrev (g : Grid) (p : BufPoint) : Option BufPoint :=
  if 0 < p.col then some ⟨p.line, p.col - 1⟩
  else if p.line + 1 < g.len then some ⟨p.line + 1, g.numCols - 1⟩
  else none

/-- `BidirectionalIterator::next` of `grid.iter_from`: step one cell
forwards in reading order. -/
def Grid.iterNext (g : Grid) (p : BufPoint) : Option BufPoint :=
  if p.col + 1 < g.numCols then some ⟨p.line, p.col + 1⟩
  else if 0 < p.line then some ⟨p.line - 1, 0⟩
  else none

/-- `ansi::StandardCharset`.  Modelled from the spec; the mapping table is
translated from `CharsetMapping for StandardCharset` in term/mod.rs. -/
inductive StandardCharset where
  | ascii
  | specialCharacterAndLineDrawing
  deriving DecidableEq

/-- Charset mapping (term/mod.rs lines 470-509). -/
def StandardCharset.map : StandardCharset → Char → Char
  | .ascii, c => c
  | .specialCharacterAndLineDrawing, c =>
    match c with
    | '\x60' => '◆'
    | 'a' => '▒'
    | 'b' => '\t'
    | 'c' => '\x0c'
    | 'd' => '\r'
    | 'e' => '\n'
    | 'f' => '°'
    | 'g' => '±'
    | 'h' => '␤'
    | 'i' => '\x0b'
    | 'j' => '┘'
    | 'k' => '┐'
    | 'l' => '┌'
    | 'm' => '└'
    | 'n' => '┼'
    | 'o' => '⎺'
    | 'p' => '⎻'
    | 'q' => '─'
    | 'r' => '⎼'
    | 's' => '⎽'
    | 't' => '├'
    | 'u' => '┤'
    | 'v' => '┴'
    | 'w' => '┬'
    | 'x' => '│'
    | 'y' => '≤'
    | 'z' => '≥'
    | '\x7b' => 'π'
    | '|' => '≠'
    | '\x7d' => '£'
    | '~' => '·'
    | other => other

/-- `ansi::CharsetIndex` (G0-G3).  Modelled from the spec. -/
inductive CharsetIndex where
  | g0 | g1 | g2 | g3
  deriving DecidableEq

/-- The four charset slots of a cursor (struct `Charsets`). -/
structure Charsets where
  g0 : StandardCharset := .ascii
  g1 : StandardCharset := .ascii
  g2 : StandardCharset := .ascii
  g3 : StandardCharset := .ascii
  deriving DecidableEq

def Charsets.get (cs : Charsets) : CharsetIndex → StandardCharset
  | .g0 => cs.g0
  | .g1 => cs.g1
  | .g2 => cs.g2
  | .g3 => cs.g3

/-- A point in visible-screen coordinates (line 0 = top). -/
structure Point where
  line : Nat
  col : Nat
  deriving DecidableEq

/-- `Cursor` (term/mod.rs lines 527-537): location, template cell, and the
configured charsets. -/
structure Cursor where
  point : Point := ⟨0, 0⟩
  template : Cell := {}
  charsets : Charsets := {}
  deriving DecidableEq

/-- `TermMode` (term/mod.rs lines 430-449), one Boolean per bitflag. -/
structure TermMode where
  showCursor : Bool := false
  appCursor : Bool := false
  appKeypad : Bool := false
  mouseReportClick : Bool := false
  bracketedPaste : Bool := false
  sgrMouse : Bool := false
  mouseMotion : Bool := false
  lineWrap : Bool := false
  lineFeedNewLine : Bool := false
  origin : Bool := false
  insert : Bool := false
  focusInOut : Bool := false
  altScreen : Bool := false
  mouseDrag : Bool := false
  deriving DecidableEq

/-- `Default for TermMode`: `SHOW_CURSOR | LINE_WRAP`. -/
def TermMode.default : TermMode :=
  { showCursor := true, lineWrap := true }

/-- `ansi::Mode`, the modes `set_mode`/`unset_mode` dispatch on.
Modelled from the spec (ansi.rs absent; constructors as matched in
term/mod.rs lines 1779-1857). -/
inductive Mode where
  | swapScreenAndSetRestoreCursor
  | showCursor
  | cursorKeys
  | reportMouseClicks
  | reportCellMouseMotion
  | reportAllMouseMotion
  | reportFocusInOut
  | bracketedPaste
  | sgrMouse
  | lineWrap
  | lineFeedNewLine
  | origin
  | deccolm
  | insert
  | blinkingCursor
  deriving DecidableEq

/-- The `MouseCursor` facade of lib.rs. -/
inductive MouseCursor where
  | arrow | text
  deriving DecidableEq

/-- `TabStops::new` (term/mod.rs lines 1912-1918): a stop at every
multiple of `tabspaces`. -/
def tabStopsNew (cols tabspaces : Nat) : List Bool :=
  (List.range cols).map (fun i => i % tabspaces == 0)

/-- `Term` (term/mod.rs lines 582-655), restricted to the fields the
modelled operations read or write. -/
structure Term where
  grid : Grid
  alt_grid : Grid
  alt : Bool := false
  cursor : Cursor := {}
  cursor_save : Cursor := {}
  cursor_save_alt : Cursor := {}
  active_charset : CharsetIndex := .g0
  mode : TermMode := TermMode.default
  scroll_region : Nat × Nat
  input_needs_wrap : Bool := false
  semantic_escape_chars : List Char := []
  next_mouse_cursor : Option MouseCursor := none
  tabs : List Bool
  tabspaces : Nat := 4
  auto_scroll : Bool := true
  deriving DecidableEq

/-- `Term::new` (term/mod.rs lines 737-785) for a size of
`lines × cols` cells: fresh primary and alternate grids, default cursor
and mode, scroll region spanning the screen, tab stops every 4 columns,
empty semantic escape characters. -/
def Term.new (lines cols : Nat) : Term :=
  { grid := Grid.new lines cols
    alt_grid := Grid.new lines cols
    scroll_region := (0, lines)
    tabs := tabStopsNew cols 4 }

/-- `Term::scroll_display(Scroll::Bottom)` as invoked from `input` when
`auto_scroll` is set: snap the display to the bottom of the buffer. -/
def Term.scrollDisplayBottom (t : Term) : Term :=
  { t with grid := { t.grid with displayOffset := 0 } }

/-- `Handler::save_cursor_position` (term/mod.rs lines 1605-1614). -/
def Term.save_cursor_position (t : Term) : Term :=
  if t.alt then { t with cursor_save_alt := t.cursor }
  else { t with cursor_save := t.cursor }

/-- `Handler::restore_cursor_position` (term/mod.rs lines 1617-1628):
restore the grid-appropriate saved cursor, clamping its point into the
current grid bounds. -/
def Term.restore_cursor_position (t : Term) : Term :=
  let source := if t.alt then t.cursor_save_alt else t.cursor_save
  { t with cursor :=
      { source with point :=
          ⟨min source.point.line (t.grid.numLines - 1),
           min source.point.col (t.grid.numCols - 1)⟩ } }

/-- `Term::swap_alt` (term/mod.rs lines 1086-1094): when leaving the
alternate screen, reset the (currently active) alternate grid with the
cursor template; then toggle `alt` and swap the two grids. -/
def Term.swap_alt (t : Term) : Term :=
  let t2 := if t.alt then { t with grid := Grid.resetAll t.grid t.cursor.template } else t
  { t2 with alt := !t2.alt, grid := t2.alt_grid, alt_grid := t2.grid }

/-- `Term::scroll_up_relative` (term/mod.rs lines 1123-1133). -/
def Term.scroll_up_relative (t : Term) (origin lines : Nat) : Term :=
  let lines := min lines (t.scroll_region.2 - t.scroll_region.1)
  { t with grid := Grid.scroll_up_region t.grid origin t.scroll_region.2 lines t.cursor.template }

/-- `Handler::scroll_up` (term/mod.rs lines 1508-1511). -/
def Term.scroll_up (t : Term) (lines : Nat) : Term :=
  t.scroll_up_relative t.scroll_region.1 lines

/-- `Handler::linefeed` (term/mod.rs lines 1446-1454). -/
def Term.linefeed (t : Term) : Term :=
  let next := t.cursor.point.line + 1
  if next == t.scroll_region.2 then t.scroll_up 1
  else if next < t.grid.numLines then
    { t with cursor := { t.cursor with point := { t.cursor.point with line := t.cursor.point.line + 1 } } }
  else t

/-- `Handler::goto` (term/mod.rs lines 1284-1295). -/
def Term.goto (t : Term) (line col : Nat) : Term :=
  let yom : Nat × Nat :=
    if t.mode.origin then (t.scroll_region.1, t.scroll_region.2 - 1)
    else (0, t.grid.numLines - 1)
  { t with
    cursor := { t.cursor with point := ⟨min (line + yom.1) yom.2, min col (t.grid.numCols - 1)⟩ }
    input_needs_wrap := false }

/-- `Handler::set_scrolling_region` (term/mod.rs lines 1860-1865). -/
def Term.set_scrolling_region (t : Term) (rstart rend : Nat) : Term :=
  Term.goto
    { t with scroll_region := (min rstart t.grid.numLines, min rend t.grid.numLines) } 0 0

/-- `Term::deccolm` (term/mod.rs lines 1135-1144): clear the scrolling
region, then clear the grid with the template. -/
def Term.deccolm (t : Term) : Term :=
  let t := t.set_scrolling_region 0 t.grid.numLines
  { t with grid := Grid.resetAll t.grid t.cursor.template }

/-- `Handler::set_mouse_cursor` (term/mod.rs lines 1180-1182). -/
def Term.set_mouse_cursor (t : Term) (c : MouseCursor) : Term :=
  { t with next_mouse_cursor := some c }

/-- `Handler::set_mode` (term/mod.rs lines 1780-1817). -/
def Term.set_mode (t : Term) (mode : Mode) : Term :=
  match mode with
  | .swapScreenAndSetRestoreCursor =>
    let t := { t with mode := { t.mode with altScreen := true } }
    let t := t.save_cursor_position
    let t := if !t.alt then t.swap_alt else t
    t.save_cursor_position
  | .showCursor => { t with mode := { t.mode with showCursor := true } }
  | .cursorKeys => { t with mode := { t.mode with appCursor := true } }
  | .reportMouseClicks =>
    Term.set_mouse_cursor { t with mode := { t.mode with mouseReportClick := true } } .arrow
  | .reportCellMouseMotion =>
    Term.set_mouse_cursor { t with mode := { t.mode with mouseDrag := true } } .arrow
  | .reportAllMouseMotion =>
    Term.set_mouse_cursor { t with mode := { t.mode with mouseMotion := true } } .arrow
  | .reportFocusInOut => { t with mode := { t.mode with focusInOut := true } }
  | .bracketedPaste => { t with mode := { t.mode with bracketedPaste := true } }
  | .sgrMouse => { t with mode := { t.mode with sgrMouse := true } }
  | .lineWrap => { t with mode := { t.mode with lineWrap := true } }
  | .lineFeedNewLine => { t with mode := { t.mode with lineFeedNewLine := true } }
  | .origin => { t with mode := { t.mode with origin := true } }
  | .deccolm => t.deccolm
  | .insert => { t with mode := { t.mode with insert := true } }
  | .blinkingCursor => t

/-- `Handler::unset_mode` (term/mod.rs lines 1820-1857). -/
def Term.unset_mode (t : Term) (mode : Mode) : Term :=
  match mode with
  | .swapScreenAndSetRestoreCursor =>
    let t := { t with mode := { t.mode with altScreen := false } }
    let t := t.restore_cursor_position
    let t := if t.alt then t.swap_alt else t
    t.restore_cursor_position
  | .showCursor => { t with mode := { t.mode with showCursor := false } }
  | .cursorKeys => { t with mode := { t.mode with appCursor := false } }
  | .reportMouseClicks =>
    Term.set_mouse_cursor { t with mode := { t.mode with mouseReportClick := false } } .text
  | .reportCellMouseMotion =>
    Term.set_mouse_cursor { t with mode := { t.mode with mouseDrag := false } } .text
  | .reportAllMouseMotion =>
    Term.set_mouse_cursor { t with mode := { t.mode with mouseMotion := false } } .text
  | .reportFocusInOut => { t with mode := { t.mode with focusInOut := false } }
  | .bracketedPaste => { t with mode := { t.mode with bracketedPaste := false } }
  | .sgrMouse => { t with mode := { t.mode with sgrMouse := false } }
  | .lineWrap => { t with mode := { t.mode with lineWrap := false } }
  | .lineFeedNewLine => { t with mode := { t.mode with lineFeedNewLine := false } }
  | .origin => { t with mode := { t.mode with origin := false } }
  | .deccolm => t.deccolm
  | .insert => { t with mode := { t.mode with insert := false } }
  | .blinkingCursor => t

/-- Character display width; capability model of the `unicode-width`
crate as used by `Term::input`.  Control characters have no width; a few
representative East-Asian-wide ranges have width 2; everything else has
width 1 (exact for the ASCII repertoire the claims use). -/
def charWidth (c : Char) : Option Nat :=
  if c.toNat < 0x20 || (0x7f ≤ c.toNat && c.toNat < 0xa0) then none
  else if (0x1100 ≤ c.toNat && c.toNat ≤ 0x115f)
       || (0x4e00 ≤ c.toNat && c.toNat ≤ 0x9fff)
       || (0xff00 ≤ c.toNat && c.toNat ≤ 0xff60) then some 2
  else some 1

/-- The cursor-advance epilogue of `Term::input` (term/mod.rs lines
1276-1281): move right, or arm `input_needs_wrap` at the last column. -/
def Term.advanceCol (t : Term) : Term :=
  if t.cursor.point.col + 1 < t.grid.numCols then
    { t with cursor := { t.cursor with point := { t.cursor.point with col := t.cursor.point.col + 1 } } }
  else { t with input_needs_wrap := true }

/-- The `INSERT`-mode shift of `Term::input` (term/mod.rs lines
1230-1243): `memmove` the row tail right by the glyph width. -/
def Term.insertShift (t : Term) (width : Nat) : Term :=
  let line := t.cursor.point.line
  let col := t.cursor.point.col
  let row := t.grid.rows.getD line []
  let row2 := row.take (col + width) ++ (row.drop col).take (t.grid.numCols - col - width)
  { t with grid := { t.grid with rows := t.grid.rows.set line row2 } }

/-- `Handler::input` (term/mod.rs lines 1192-1281), translated arm by
arm: auto-scroll to bottom; handle a pending wrap (insert `WRAPLINE`
under the cursor, advance a line — via `linefeed` at the scroll-region
end — and return to column 0); then, if the character has a width:
`INSERT`-shift, zero-width append (which returns early; note the
*discarded* `col.saturating_sub(1)` of the spacer check in the source),
or a normal/wide glyph write through the charset mapping; finally advance
the column or arm `input_needs_wrap`. -/
def Term.input (t : Term) (c : Char) : Term :=
  let t := if t.auto_scroll then t.scrollDisplayBottom else t
  if t.input_needs_wrap && !t.mode.lineWrap then t
  else
    let t :=
      if t.input_needs_wrap then
        let cell := t.grid.cellAt t.cursor.point.line t.cursor.point.col
        let wrapped := { cell with flags := { cell.flags with wrapline := true } }
        let t := { t with grid := t.grid.setCell t.cursor.point.line t.cursor.point.col wrapped }
        let t :=
          if t.scroll_region.2 ≤ t.cursor.point.line + 1 then t.linefeed
          else { t with cursor := { t.cursor with point := { t.cursor.point with line := t.cursor.point.line + 1 } } }
        { t with
          cursor := { t.cursor with point := { t.cursor.point with col := 0 } }
          input_needs_wrap := false }
      else t
    match charWidth c with
    | none => t.advanceCol
    | some width =>
      let num_cols := t.grid.numCols
      let t :=
        if t.mode.insert && t.cursor.point.col + width < num_cols then t.insertShift width
        else t
      if width == 0 then
        let col := t.cursor.point.col - 1
        let line := t.cursor.point.line
        let cell := t.grid.cellAt line col
        { t with grid := t.grid.setCell line col (cell.push_extra c) }
      else
        let mapped := (t.cursor.charsets.get t.active_charset).map c
        let glyph := { t.cursor.template with c := mapped }
        let glyph := if width == 2 then { glyph with flags := { glyph.flags with wideChar := true } } else glyph
        let t := { t with grid := t.grid.setCell t.cursor.point.line t.cursor.point.col glyph }
        let t :=
          if width == 2 && t.cursor.point.col + 1 < num_cols then
            let t := { t with cursor := { t.cursor with point := { t.cursor.point with col := t.cursor.point.col + 1 } } }
            let spacer := { t.cursor.template with flags := { t.cursor.template.flags with wideCharSpacer := true } }
            { t with grid := t.grid.setCell t.cursor.point.line t.cursor.point.col spacer }
          else t
        t.advanceCol

/-- Write a sequence of characters through `Handler::input`. -/
def Term.writeAll (t : Term) (cs : List Char) : Term :=
  cs.foldl Term.input t

/-- `Search::semantic_search_left` loop body (term/mod.rs lines 50-70):
walk backwards; stop before an escape character, or upon crossing onto a
line that did not wrap; `point` trails the iterator.  `fuel` bounds the
walk (one grid of cells suffices). -/
def Term.searchLeftGo (t : Term) : Nat → BufPoint → BufPoint → BufPoint
  | 0, _, point => point
  | fuel + 1, cur, point =>
    match t.grid.iterPrev cur with
    | none => point
    | some cur2 =>
      let cell := t.grid.bufCell cur2
      if t.semantic_escape_chars.contains cell.c then point
      else if cur2.col == t.grid.numCols - 1 && !cell.flags.wrapline then point
      else t.searchLeftGo fuel cur2 cur2

/-- `Search::semantic_search_left` (term/mod.rs lines 50-70). -/
def Term.semantic_search_left (t : Term) (p : BufPoint) : BufPoint :=
  let pl := min p.line (t.grid.len - 1)
  t.searchLeftGo (t.grid.len * t.grid.numCols + 1) ⟨pl, p.col⟩ ⟨pl, p.col⟩

/-- `Search::semantic_search_right` loop body (term/mod.rs lines 72-92):
walk forwards; stop before an escape character; the point is updated
before the wrap check, so the last column of a non-wrapping line is
included. -/
def Term.searchRightGo (t : Term) : Nat → BufPoint → BufPoint → BufPoint
  | 0, _, point => point
  | fuel + 1, cur, point =>
    match t.grid.iterNext cur with
    | none => point
    | some cur2 =>
      let cell := t.grid.bufCell cur2
      if t.semantic_escape_chars.contains cell.c then point
      else if cur2.col == t.grid.numCols - 1 && !cell.flags.wrapline then cur2
      else t.searchRightGo fuel cur2 cur2

/-- `Search::semantic_search_right` (term/mod.rs lines 72-92). -/
def Term.semantic_search_right (t : Term) (p : BufPoint) : BufPoint :=
  let pl := min p.line (t.grid.len - 1)
  t.searchRightGo (t.grid.len * t.grid.numCols + 1) ⟨pl, p.col⟩ ⟨pl, p.col⟩

/-- Semantic selection at a point: the text between the two semantic
boundaries.  Modelled from the spec (selection.rs is absent):
`Selection::semantic` expands the point with `semantic_search_left` /
`semantic_search_right`, and `selection_to_string` concatenates the
glyphs of the selected cells (the claims select within a single line). -/
def Term.semanticSelectionString (t : Term) (p : BufPoint) : String :=
  let l := t.semantic_search_left p
  let r := t.semantic_search_right p
  String.mk ((List.range (r.col + 1 - l.col)).map
    (fun j => (t.grid.bufCell ⟨l.line, l.col + j⟩).c))

/-- The effect, on one row, of writing the characters `cs` into
consecutive cells starting at column `k`, each cell taken from the
template with only the glyph replaced — the shape `Handler::input` gives a
row during a run of width-1 writes. -/
def writeRow (row : List Cell) (tmpl : Cell) (k : Nat) : List Char → List Cell
  | [] => row
  | c :: cs => writeRow (row.set k { tmpl with c := c }) tmpl (k + 1) cs

/-- A plain cell carrying just a glyph. -/
def glyphCell (ch : Char) : Cell := { c := ch }

/-- The row of the semantic-search scenario (spec §8 scenario 6): five
cells `" a a " a` with the double quote at columns 0 and 3. -/
def semanticRow : List Cell :=
  [glyphCell '"', glyphCell 'a', glyphCell 'a', glyphCell '"', glyphCell 'a']

/-- A freshly constructed 3×5 terminal whose buffer line 0 (the scenario's
“line 0”) holds `semanticRow`, with the double quote configured as the
semantic escape character (as the `semantic_selection_works` test installs
it). -/
def semanticTerm : Term :=
  let t := Term.new 3 5
  { t with
    grid := { t.grid with rows := [t.grid.rows.getD 0 [], t.grid.rows.getD 1 [], semanticRow] }
    semantic_escape_chars := ['"'] }

end Emu

/-! ## Concrete endpoint behaviours used to witness the half-close claim -/

namespace Proc

/-- An underlying PTY write half whose every operation fails with
`BrokenPipe` (the child closed its slave-side read end). -/
def brokenPipeSink : SinkBeh Unit Nat :=
  { start_send := fun _ _ => .error ⟨.brokenPipe, some 32⟩
    poll_complete := fun _ => .error ⟨.brokenPipe, some 32⟩ }

/-- An underlying PTY read half whose poll fails with raw OS error 5
(`EIO`: the slave closed its write end). -/
def eioStream : StreamBeh Unit Nat :=
  { poll := fun _ => .error ⟨.other 5, some 5⟩ }

end Proc


/-!
# Theorems

One theorem per claim (plus counterexamples and witnesses where the claim
requires them), in claim order.
-/

/-- C1 (counter-evidence): on the byte stream `"a,,,b,c"` with delimiter
`','` (byte 44), delivered as one chunk followed by end of input, the
framed codec emits the tokens `"a"` and `"b,c"` — the second token
contains the configured delimiter byte 44, contradicting the claim that
no emitted token ever does.  (The `decode_eof` flush misreads `decode`'s
empty-frame skip as “no terminating delimiter” and flushes the rest of
the buffer wholesale.) -/
theorem delimiter_codec_token_contains_delimiter :
    Delimiter.framedRun (some 44) [[97, 44, 44, 44, 98, 44, 99]] = [[97], [98, 44, 99]] ∧
    (44 ∈ [98, 44, 99]) ∧ Delimiter.isDelimByte (some 44) 44 = true := by
  refine ⟨by decide, by decide, by decide⟩

/-- C3 (counter-evidence): a `SelectAll` holding an exhausted member
stream `[]` and a member stream `[5]` with an item pending, polled under
a schedule in which the exhausted member's future completes first,
reports “done” (`none`) even though the non-exhausted member `[5]`
remains — contradicting the claim that “done” is signalled only when the
member set is empty. -/
theorem select_all_done_with_live_member :
    Streams.SelectAll.poll 0 ([[], [5]] : List (List Nat)) = ([[5]], none) ∧
    ([5] : List Nat) ≠ [] := by
  refine ⟨rfl, by decide⟩

/-- C2 (counterexample): with every fatal-initialization step succeeding
and a single child that exits with status 1 (unsuccessfully — its failure
is duly recorded in the UI state), the program's exit code is 0, not the
nonzero value the claim requires. -/
theorem exit_code_zero_despite_child_failure :
    MainMod.mainExitCode none 1
      [MainMod.Event.processExit 0 (1 : Int), MainMod.Event.endOfUserInput] = 0 ∧
    MainMod.run_with_options none 1
      [MainMod.Event.processExit 0 (1 : Int), MainMod.Event.endOfUserInput] =
      .ok [some (1 : Int)] ∧
    MainMod.ExitStatus.success (1 : Int) = false ∧ (0 : Nat) ≠ 1 := by
  refine ⟨by decide, rfl, by decide, by decide⟩

/-- C2 (amended): when every fatal-initialization step succeeds the final
exit code is 0 regardless of the children's exit statuses (they are only
recorded in the UI state); the exit code is 1 exactly when a fatal
initialization step fails. -/
theorem exit_code_independent_of_children (n : Nat) (events : List MainMod.Event)
    (e : String) :
    MainMod.mainExitCode none n events = 0 ∧
    MainMod.mainExitCode (some e) n events = 1 :=
  ⟨rfl, rfl⟩

/-- C9: on a freshly constructed terminal whose line 0 holds the cells
`" a a " a` with the double-quote escape character at columns 0 and 3,
semantic selection at point `(0,2)` stops leftwards at the quote in
column 0 (boundary `(0,1)`), rightwards at the quote in column 3
(boundary `(0,2)`), and selects exactly the string `"aa"` between the
quotes. -/
theorem semantic_selection_between_quotes :
    Emu.semanticTerm.semantic_search_left ⟨0, 2⟩ = ⟨0, 1⟩ ∧
    Emu.semanticTerm.semantic_search_right ⟨0, 2⟩ = ⟨0, 2⟩ ∧
    Emu.semanticTerm.semanticSelectionString ⟨0, 2⟩ = "aa" := by
  refine ⟨by decide, by decide, by decide⟩

/-- Splitting yields one more segment than there are separators. -/
theorem ArgsMod.splitParts_length (p : String → Bool) (l : List String) :
    (ArgsMod.splitParts p l).length = l.countP p + 1 := by
  induction l with
  | nil => simp [ArgsMod.splitParts]
  | cons a as ih =>
    by_cases h : p a
    · simp [ArgsMod.splitParts, h, List.countP_cons, ih]
    · simp only [ArgsMod.splitParts, h, if_false, List.countP_cons]
      cases hs : ArgsMod.splitParts p as with
      | nil =>
        rw [hs] at ih
        simp only [List.length_nil] at ih
        omega
      | cons s ss =>
        simp only [List.length_cons] at ih ⊢
        rw [hs] at ih
        simp only [List.length_cons] at ih
        simp [h, ih]

/-- Splitting a list with no separators yields the single segment `[l]`. -/
theorem ArgsMod.splitParts_of_countP_zero (p : String → Bool) (l : List String)
    (h : l.countP p = 0) : ArgsMod.splitParts p l = [l] := by
  induction l with
  | nil => simp [ArgsMod.splitParts]
  | cons a as ih =>
    rw [List.countP_cons] at h
    have hpa : p a = false := by
      by_cases hp : p a
      · simp [hp] at h
      · simpa using hp
    have has : as.countP p = 0 := by omega
    simp [ArgsMod.splitParts, hpa, ih has]

/-- C8: for every token `x`, a template with no placeholder occurrence
parses to a single segment and expands to the template with `x` appended;
a template with `k ≥ 1` placeholder occurrences parses to `k + 1`
segments, and its expansion is those segments interleaved with `x`
substituted at every placeholder position (`List.intercalate [x]`). -/
theorem template_expansion (initial_args : List String) (replace : Option String)
    (x : String) :
    (initial_args.countP (fun part => part == ArgsMod.placeholder replace) = 0 →
      ArgsMod.generate_final_args x (ArgsMod.parse_arg_template initial_args replace) =
        initial_args ++ [x]) ∧
    (1 ≤ initial_args.countP (fun part => part == ArgsMod.placeholder replace) →
      (ArgsMod.parse_arg_template initial_args replace).length =
        initial_args.countP (fun part => part == ArgsMod.placeholder replace) + 1 ∧
      ArgsMod.generate_final_args x (ArgsMod.parse_arg_template initial_args replace) =
        List.intercalate [x] (ArgsMod.parse_arg_template initial_args replace)) := by
  constructor
  · intro h
    rw [ArgsMod.parse_arg_template, ArgsMod.splitParts_of_countP_zero _ _ h]
    simp [ArgsMod.generate_final_args]
  · intro h
    have hlen := ArgsMod.splitParts_length
      (fun part => part == ArgsMod.placeholder replace) initial_args
    rw [ArgsMod.parse_arg_template]
    refine ⟨hlen, ?_⟩
    have hne : ((ArgsMod.splitParts (fun part => part == ArgsMod.placeholder replace)
        initial_args).length == 1) = false := by
      simp only [beq_eq_false_iff_ne, ne_eq]
      omega
    simp [ArgsMod.generate_final_args, hne]

/-- Witness for C8 at the spec's literal scenarios: template `["echo"]`
(no placeholder) expands `"hi"` to `["echo","hi"]`, and template
`["echo","{}","done"]` with default placeholder splits into two segments
and expands to `["echo","hi","done"]`. -/
theorem template_expansion_witness :
    (ArgsMod.generate_final_args "hi" (ArgsMod.parse_arg_template ["echo"] none) =
      ["echo", "hi"]) ∧
    ((ArgsMod.parse_arg_template ["echo", "\x7b\x7d", "done"] none).length = 2 ∧
      ArgsMod.generate_final_args "hi"
          (ArgsMod.parse_arg_template ["echo", "\x7b\x7d", "done"] none) =
        List.intercalate ["hi"] (ArgsMod.parse_arg_template ["echo", "\x7b\x7d", "done"] none)) := by
  refine ⟨(template_expansion ["echo"] none "hi").1 (by decide), ?_⟩
  exact (template_expansion ["echo", "\x7b\x7d", "done"] none "hi").2 (by decide)

/-- A `takeWhile` over a list that satisfies the predicate up to a first
failing element returns exactly the prefix before that element. -/
theorem MainMod.takeWhile_until_stop {α : Type} (p : α → Bool) (pre post : List α)
    (e : α) (hpre : ∀ x ∈ pre, p x = true) (he : p e = false) :
    (pre ++ e :: post).takeWhile p = pre := by
  induction pre with
  | nil => simp [List.takeWhile_cons, he]
  | cons a as ih =>
    have ha : p a = true := hpre a (by simp)
    simp only [List.cons_append, List.takeWhile_cons, ha, if_true]
    rw [ih (fun x hx => hpre x (by simp [hx]))]

/-- Mapping a raw item to a `UserInput` event preserves the Ctrl+T test. -/
theorem MainMod.isCtrlTUserInput_toUserInput
    (x : Except MainMod.IoErr (MainMod.TEvent × List Nat)) :
    MainMod.isCtrlTUserInput (MainMod.toUserInput x) = MainMod.isCtrlT x := by
  cases x with
  | error err => rfl
  | ok v =>
    obtain ⟨ev, data⟩ := v
    cases ev with
    | key k => cases k <;> rfl
    | mouse m => rfl
    | unsupported bs => rfl

/-- C10: when the raw terminal event stream consists of a prefix free of
Ctrl+T, then a Ctrl+T key event, then anything further, the user-input
event stream is exactly the prefix mapped to `UserInput` events — the
Ctrl+T event itself is never emitted and nothing after it is — and the
stream the event loop consumes ends with the `EndOfUserInput` sentinel
immediately after that prefix. -/
theorem ctrl_t_terminates_user_input
    (evs pre post : List (Except MainMod.IoErr (MainMod.TEvent × List Nat)))
    (e : Except MainMod.IoErr (MainMod.TEvent × List Nat))
    (hsplit : evs = pre ++ e :: post)
    (he : MainMod.isCtrlT e = true)
    (hpre : ∀ x ∈ pre, MainMod.isCtrlT x = false) :
    MainMod.read_events evs = pre.map MainMod.toUserInput ∧
    (∀ ev ∈ MainMod.read_events evs, MainMod.isCtrlTUserInput ev = false) ∧
    MainMod.userEventSpine evs =
      pre.map MainMod.toUserInput ++ [.ok .endOfUserInput] := by
  have hre : MainMod.read_events evs = pre.map MainMod.toUserInput := by
    rw [hsplit, MainMod.read_events,
      MainMod.takeWhile_until_stop (fun x => !MainMod.isCtrlT x) pre post e
        (fun x hx => by simp [hpre x hx]) (by simp [he])]
  refine ⟨hre, ?_, ?_⟩
  · intro ev hev
    rw [hre] at hev
    rcases List.mem_map.mp hev with ⟨x, hx, hxe⟩
    rw [← hxe, MainMod.isCtrlTUserInput_toUserInput]
    exact hpre x hx
  · rw [MainMod.userEventSpine, hre]

/-- Witness for C10: a keystroke `h`, then Ctrl+T, then a further
keystroke that must never surface.  The emitted user-input stream is the
single `h` event, and the loop's spine is that event followed by the
sentinel. -/
theorem ctrl_t_terminates_user_input_witness :
    MainMod.read_events
        [.ok (.key (.char 'h'), [104]), .ok (.key (.ctrl 't'), [20]),
         .ok (.key (.char 'x'), [120])] =
      [.ok (.userInput (.key (.char 'h')) [104])] ∧
    (∀ ev ∈ MainMod.read_events
        [.ok (.key (.char 'h'), [104]), .ok (.key (.ctrl 't'), [20]),
         .ok (.key (.char 'x'), [120])], MainMod.isCtrlTUserInput ev = false) ∧
    MainMod.userEventSpine
        [.ok (.key (.char 'h'), [104]), .ok (.key (.ctrl 't'), [20]),
         .ok (.key (.char 'x'), [120])] =
      [.ok (.userInput (.key (.char 'h')) [104]), .ok .endOfUserInput] := by
  have h := ctrl_t_terminates_user_input
    [.ok (.key (.char 'h'), [104]), .ok (.key (.ctrl 't'), [20]),
     .ok (.key (.char 'x'), [120])]
    [.ok (.key (.char 'h'), [104])]
    [.ok (.key (.char 'x'), [120])]
    (.ok (.key (.ctrl 't'), [20]))
    rfl (by decide) (by decide)
  exact h

/-- C4: half-close handling of the per-child PTY endpoints.  A failing
underlying write (`start_send` or `poll_complete`) is absorbed exactly
when its kind is `BrokenPipe`, transitioning the input sink to the
sink-less terminal state and reporting success; in that terminal state
every subsequent write and flush succeeds as a no-op.  A failing
underlying read is turned into end-of-stream exactly when its raw OS
error is 5 (`EIO`), and thereafter polling reports the stream closed.
Every other error propagates as a `Failure`. -/
theorem pty_half_close {σ τ α β : Type} (sbeh : Proc.SinkBeh σ α)
    (obeh : Proc.StreamBeh τ β) (s : σ) (u : τ) (item : α) :
    (∀ e, sbeh.start_send s item = .error e →
      Proc.Input.start_send sbeh (some s) item =
        (if e.kind = .brokenPipe then .ok (none, .ready) else .error (.fromIo e))) ∧
    (∀ e, sbeh.poll_complete s = .error e →
      Proc.Input.poll_complete sbeh (some s) =
        (if e.kind = .brokenPipe then .ok (none, .ready) else .error (.fromIo e))) ∧
    (∀ x, Proc.Input.start_send sbeh (none : Proc.InputState σ) x = .ok (none, .ready)) ∧
    (Proc.Input.poll_complete sbeh (none : Proc.InputState σ) = .ok (none, .ready)) ∧
    (∀ e, obeh.poll u = .error e →
      Proc.Output.poll obeh (some u) =
        (if e.raw_os = some 5 then .ok (none, .ready none) else .error (.fromIo e))) ∧
    (Proc.Output.poll obeh (none : Proc.OutputState τ) = .ok (none, .ready none)) := by
  refine ⟨?_, ?_, fun _ => rfl, rfl, ?_, rfl⟩
  · intro e he
    rw [Proc.Input.start_send, he]
    by_cases h : e.kind = .brokenPipe <;> simp [h]
  · intro e he
    rw [Proc.Input.poll_complete, he]
    by_cases h : e.kind = .brokenPipe <;> simp [h]
  · intro e he
    rw [Proc.Output.poll, he]
    by_cases h : e.raw_os = some 5 <;> simp [h]

/-- Witness for C4: against a write half that always fails with
`BrokenPipe` and a read half that always fails with raw OS error 5, the
input sink absorbs the error into the terminal no-op state, keeps
accepting writes there, and the output stream reports end of stream. -/
theorem pty_half_close_witness :
    Proc.Input.start_send Proc.brokenPipeSink (some ()) 7 = .ok (none, .ready) ∧
    Proc.Input.poll_complete Proc.brokenPipeSink (some ()) = .ok (none, .ready) ∧
    Proc.Input.start_send Proc.brokenPipeSink (none : Proc.InputState Unit) 8 =
      .ok (none, .ready) ∧
    Proc.Input.poll_complete Proc.brokenPipeSink (none : Proc.InputState Unit) =
      .ok (none, .ready) ∧
    Proc.Output.poll Proc.eioStream (some ()) = .ok (none, .ready none) ∧
    Proc.Output.poll Proc.eioStream (none : Proc.OutputState Unit) =
      .ok (none, .ready none) := by
  obtain ⟨h1, h2, h3, h4, h5, h6⟩ :=
    pty_half_close Proc.brokenPipeSink Proc.eioStream () () 7
  refine ⟨?_, ?_, h3 8, h4, ?_, h6⟩
  · simpa using h1 ⟨.brokenPipe, some 32⟩ rfl
  · simpa using h2 ⟨.brokenPipe, some 32⟩ rfl
  · simpa using h5 ⟨.other 5, some 5⟩ rfl

/-- A `mapM` over `Except` of a function that never errors is the `map`
of its value function. -/
theorem Sinks.mapM_ok {α β ε : Type} (F : α → Except ε β) (g : α → β)
    (h : ∀ a, F a = .ok (g a)) (l : List α) : l.mapM F = .ok (l.map g) := by
  induction l with
  | nil => rfl
  | cons a as ih =>
    rw [List.mapM_cons, h a, ih]
    rfl

/-- Binding a successful `Except` computation just applies the
continuation. -/
theorem Sinks.bind_ok_eq {ε β γ : Type} (v : β) (k : β → Except ε γ) :
    (Except.ok v >>= k) = k v := rfl

/-- Against a traced downstream, `Downstream::keep_flushing` is the spec's
retry step and never errors. -/
theorem Sinks.keep_flushing_traced {α ε : Type} (accept : List α → α → Bool)
    (d : Sinks.Downstream (List α) α) :
    Sinks.Downstream.keep_flushing (ε := ε) (Sinks.tracedImpl accept) d =
      .ok (Sinks.retryOne accept d) := by
  cases d with
  | mk sink state =>
    cases state with
    | ready => rfl
    | notReady prev =>
      rw [Sinks.Downstream.keep_flushing, Sinks.retryOne]
      by_cases h : accept sink prev <;> simp [Sinks.tracedImpl, h]

/-- C5: `Fanout::start_send`, run against any family of traced
downstreams, implements the spec's protocol: it first lets every
downstream holding a pending item retry it (`retryOne`); if and only if
every downstream is then ready, it `start_send`s a clone of `x` to every
downstream, recording each one's new state (`sendOne`), and returns
`Ready`; otherwise it leaves the downstreams exactly as the retries left
them — so no downstream receives `x` — and returns `NotReady(x)`. -/
theorem fanout_start_send_protocol {α ε : Type} (accept : List α → α → Bool)
    (f : Sinks.Fanout (List α) α) (x : α) :
    Sinks.Fanout.start_send (ε := ε) (Sinks.tracedImpl accept) f x =
      (if (f.downstreams.map (Sinks.retryOne accept)).all Sinks.Downstream.is_ready then
        .ok (⟨(f.downstreams.map (Sinks.retryOne accept)).map (Sinks.sendOne accept x)⟩,
          .ready)
      else .ok (⟨f.downstreams.map (Sinks.retryOne accept)⟩, .notReady x)) := by
  rw [Sinks.Fanout.start_send]
  rw [Sinks.mapM_ok _ _ (Sinks.keep_flushing_traced accept) f.downstreams]
  have hsend : ∀ d : Sinks.Downstream (List α) α,
      (do
        let (s, st) ← (Sinks.tracedImpl (ε := ε) accept).start_send d.sink x
        pure (⟨s, st⟩ : Sinks.Downstream (List α) α)) =
        .ok (Sinks.sendOne accept x d) := by
    intro d
    rw [Sinks.sendOne]
    by_cases h : accept d.sink x <;> simp [Sinks.tracedImpl, h]
  rw [Sinks.bind_ok_eq]
  simp only []
  by_cases hall : (f.downstreams.map (Sinks.retryOne accept)).all Sinks.Downstream.is_ready
  · rw [if_pos hall, if_pos hall, Sinks.mapM_ok _ _ hsend, Sinks.bind_ok_eq]
    rfl
  · rw [if_neg hall, if_neg hall]
    rfl

/-- C6: for every terminal state on the primary screen (with its cursor
in bounds, as the grid invariant guarantees), `set_mode` of
`SwapScreenAndSetRestoreCursor` followed by the matching `unset_mode`
leaves the (visible) primary grid bit-identical to what it was
immediately before the set, restores the saved cursor exactly, and lands
back on the primary screen.  The alternate grid is reset on the way out,
but the primary content survives the round trip untouched. -/
theorem alt_screen_round_trip (t : Emu.Term) (halt : t.alt = false)
    (hline : t.cursor.point.line < t.grid.numLines)
    (hcol : t.cursor.point.col < t.grid.numCols) :
    ((t.set_mode .swapScreenAndSetRestoreCursor).unset_mode
        .swapScreenAndSetRestoreCursor).grid = t.grid ∧
    ((t.set_mode .swapScreenAndSetRestoreCursor).unset_mode
        .swapScreenAndSetRestoreCursor).cursor = t.cursor ∧
    ((t.set_mode .swapScreenAndSetRestoreCursor).unset_mode
        .swapScreenAndSetRestoreCursor).alt = false := by
  simp only [Emu.Term.set_mode, Emu.Term.unset_mode, Emu.Term.save_cursor_position,
    Emu.Term.restore_cursor_position, Emu.Term.swap_alt, halt]
  simp only [Bool.not_false, Bool.not_true, if_true, if_false, Bool.false_eq_true]
  refine ⟨trivial, ?_, trivial⟩
  have h1 : t.cursor.point.line ⊓ (t.grid.numLines - 1) = t.cursor.point.line := by omega
  have h2 : t.cursor.point.col ⊓ (t.grid.numCols - 1) = t.cursor.point.col := by omega
  rw [h1, h2]

/-- Witness for C6: a 2×2 terminal that has printed `xy` (cursor at
`(0,1)`) survives the alternate-screen round trip with its grid and
cursor intact. -/
theorem alt_screen_round_trip_witness :
    ((((Emu.Term.new 2 2).writeAll ['x', 'y']).set_mode
          .swapScreenAndSetRestoreCursor).unset_mode
        .swapScreenAndSetRestoreCursor).grid = ((Emu.Term.new 2 2).writeAll ['x', 'y']).grid ∧
    ((((Emu.Term.new 2 2).writeAll ['x', 'y']).set_mode
          .swapScreenAndSetRestoreCursor).unset_mode
        .swapScreenAndSetRestoreCursor).cursor = ((Emu.Term.new 2 2).writeAll ['x', 'y']).cursor ∧
    ((((Emu.Term.new 2 2).writeAll ['x', 'y']).set_mode
          .swapScreenAndSetRestoreCursor).unset_mode
        .swapScreenAndSetRestoreCursor).alt = false :=
  alt_screen_round_trip ((Emu.Term.new 2 2).writeAll ['x', 'y'])
    (by decide) (by decide) (by decide)

/-- The default charset configuration maps every slot to ASCII. -/
theorem Emu.Charsets.get_default (i : Emu.CharsetIndex) :
    Emu.Charsets.get {} i = Emu.StandardCharset.ascii := by
  cases i <;> rfl

/-- One width-1 character fed to `Handler::input` in a non-wrapping,
non-insert state writes the template-with-glyph cell under the cursor and
either advances the column or, at the last column, arms
`input_needs_wrap`. -/
theorem Emu.input_width1 (t : Emu.Term) (c : Char)
    (hw : Emu.charWidth c = some 1)
    (hwr : t.input_needs_wrap = false)
    (hins : t.mode.insert = false)
    (hch : t.cursor.charsets = {})
    (hoff : t.grid.displayOffset = 0) :
    t.input c =
      (if t.cursor.point.col + 1 < t.grid.numCols then
        { t with
          grid := t.grid.setCell t.cursor.point.line t.cursor.point.col
            { t.cursor.template with c := c }
          cursor := { t.cursor with point := { t.cursor.point with col := t.cursor.point.col + 1 } } }
      else
        { t with
          grid := t.grid.setCell t.cursor.point.line t.cursor.point.col
            { t.cursor.template with c := c }
          input_needs_wrap := true }) := by
  have hscroll : (if t.auto_scroll then t.scrollDisplayBottom else t) = t := by
    rw [Emu.Term.scrollDisplayBottom]
    rw [show ({ t.grid with displayOffset := 0 } : Emu.Grid) = t.grid from by rw [← hoff]]
    split <;> rfl
  rw [Emu.Term.input, hscroll, hwr]
  simp only [Bool.false_and, Bool.false_eq_true, if_false, hw]
  rw [hins]
  simp only [Bool.false_and, Bool.false_eq_true, if_false]
  have hmap : (t.cursor.charsets.get t.active_charset).map c = c := by
    rw [hch, Emu.Charsets.get_default]
    rfl
  rw [hmap]
  simp only [show ((1 : Nat) == 0) = false from rfl, show ((1 : Nat) == 2) = false from rfl,
    Bool.false_and, Bool.false_eq_true, if_false]
  rw [Emu.Term.advanceCol]
  split
  next h =>
    rw [if_pos (show t.cursor.point.col + 1 < t.grid.numCols from h)]
    simp [hwr]
  next h =>
    rw [if_neg (show ¬(t.cursor.point.col + 1 < t.grid.numCols) from h)]

/-- `getD` after `set` at the same in-bounds index yields the new
element. -/
theorem listGetD_set_self {α : Type} (l : List α) (i : Nat) (a d : α) (h : i < l.length) :
    (l.set i a).getD i d = a := by
  simp [List.getD_eq_getElem?_getD, List.getElem?_set_self, h]

/-- A run of width-1 characters that fits in the current line writes them
into consecutive cells of the cursor's row, leaves the cursor at the
last written column (clamped to the line), and arms `input_needs_wrap`
exactly when the run ends flush with the right edge. -/
theorem Emu.writeAll_width1 (cs : List Char) : ∀ (t : Emu.Term),
    (∀ c ∈ cs, Emu.charWidth c = some 1) →
    t.input_needs_wrap = false →
    t.mode.insert = false →
    t.cursor.charsets = {} →
    t.grid.displayOffset = 0 →
    t.cursor.point.line < t.grid.rows.length →
    t.cursor.point.col + cs.length ≤ t.grid.numCols →
    t.writeAll cs =
      (if cs.isEmpty then t else
        { t with
          grid := { t.grid with rows := (t.grid.rows.set t.cursor.point.line (Emu.writeRow (t.grid.rows.getD t.cursor.point.line []) t.cursor.template t.cursor.point.col cs)) }
          cursor := { t.cursor with point := { t.cursor.point with col := min (t.cursor.point.col + cs.length) (t.grid.numCols - 1) } }
          input_needs_wrap := decide (t.cursor.point.col + cs.length = t.grid.numCols) }) := by
  induction cs with
  | nil => intro t _ _ _ _ _ _ _; rfl
  | cons c cs2 ih =>
    intro t hw hwr hins hch hoff hline hcol
    simp only [List.length_cons] at hcol
    have hstep := Emu.input_width1 t c (hw c (by simp)) hwr hins hch hoff
    have hunfold : Emu.Term.writeAll t (c :: cs2) = Emu.Term.writeAll (t.input c) cs2 := rfl
    by_cases h : t.cursor.point.col + 1 < t.grid.numCols
    · rw [if_pos h] at hstep
      have hwr2 : (t.input c).input_needs_wrap = false := by rw [hstep]; exact hwr
      have hins2 : (t.input c).mode.insert = false := by rw [hstep]; exact hins
      have hch2 : (t.input c).cursor.charsets = {} := by rw [hstep]; exact hch
      have hoff2 : (t.input c).grid.displayOffset = 0 := by rw [hstep]; exact hoff
      have hline2 : (t.input c).cursor.point.line < (t.input c).grid.rows.length := by
        rw [hstep]
        simpa [Emu.Grid.setCell] using hline
      have hcol2 : (t.input c).cursor.point.col + cs2.length ≤ (t.input c).grid.numCols := by
        rw [hstep]
        simp only [Emu.Grid.setCell]
        omega
      have h2 := ih (t.input c) (fun x hx => hw x (by simp [hx])) hwr2 hins2 hch2 hoff2
        hline2 hcol2
      rw [hunfold, h2, hstep]
      cases cs2 with
      | nil =>
        simp only [List.isEmpty_nil, List.isEmpty_cons, if_true, if_false,
          Bool.false_eq_true]
        have hmin : (t.cursor.point.col + [c].length) ⊓ (t.grid.numCols - 1) =
            t.cursor.point.col + 1 := by
          simp only [List.length_cons, List.length_nil]
          omega
        have hdec : (decide (t.cursor.point.col + [c].length = t.grid.numCols)) = false := by
          simp only [List.length_cons, List.length_nil, decide_eq_false_iff_not]
          omega
        rw [hmin, hdec, hwr]
        rfl
      | cons d cs3 =>
        simp only [List.isEmpty_cons, if_false, Bool.false_eq_true, Emu.Grid.setCell,
          Emu.writeRow, List.length_cons]
        rw [listGetD_set_self _ _ _ _ hline]
        rw [List.set_set]
        have harith : t.cursor.point.col + 1 + (cs3.length + 1) =
            t.cursor.point.col + (cs3.length + 1 + 1) := by omega
        simp only [harith]
    · rw [if_neg h] at hstep
      have hcs2 : cs2 = [] := by
        cases cs2 with
        | nil => rfl
        | cons d cs3 =>
          exfalso
          simp only [List.length_cons] at hcol
          omega
      subst hcs2
      rw [hunfold, show Emu.Term.writeAll (t.input c) [] = t.input c from rfl, hstep]
      simp only [List.isEmpty_cons, if_false, Bool.false_eq_true, List.length_cons,
        List.length_nil]
      have hmin : (t.cursor.point.col + (0 + 1)) ⊓ (t.grid.numCols - 1) =
          t.cursor.point.col := by omega
      have hdec : (decide (t.cursor.point.col + (0 + 1) = t.grid.numCols)) = true := by
        simp only [decide_eq_true_eq]
        omega
      simp only [hmin, hdec]
      rfl

/-- `getD` after `set` at a different index is unchanged. -/
theorem listGetD_set_ne {α : Type} (l : List α) (i j : Nat) (a : α) (d : α) (h : i ≠ j) :
    (l.set i a).getD j d = l.getD j d := by
  simp [List.getD_eq_getElem?_getD, List.getElem?_set_ne, h]

/-- `getD` of an in-bounds index of a replicated list. -/
theorem listGetD_replicate {α : Type} (n i : Nat) (a d : α) (h : i < n) :
    (List.replicate n a).getD i d = a := by
  simp only [List.getD_eq_getElem?_getD, List.getElem?_replicate]
  simp [h]

/-- `writeRow` preserves the row length. -/
theorem Emu.writeRow_length (cs : List Char) : ∀ (row : List Emu.Cell) (tmpl : Emu.Cell)
    (k : Nat), (Emu.writeRow row tmpl k cs).length = row.length := by
  induction cs with
  | nil => intro row tmpl k; rfl
  | cons c cs2 ih =>
    intro row tmpl k
    rw [Emu.writeRow, ih, List.length_set]

/-- `writeRow` leaves cells left of the write window untouched. -/
theorem Emu.writeRow_getD_lt (cs : List Char) : ∀ (row : List Emu.Cell) (tmpl d : Emu.Cell)
    (k i : Nat), i < k → (Emu.writeRow row tmpl k cs).getD i d = row.getD i d := by
  induction cs with
  | nil => intro row tmpl d k i _; rfl
  | cons c cs2 ih =>
    intro row tmpl d k i hik
    rw [Emu.writeRow, ih _ _ _ _ _ (by omega), listGetD_set_ne _ _ _ _ _ (by omega)]

/-- The cell `j` positions into a `writeRow` window carries the `j`-th
written glyph over the template. -/
theorem Emu.writeRow_getD (cs : List Char) : ∀ (row : List Emu.Cell) (tmpl d : Emu.Cell)
    (k j : Nat), j < cs.length → k + cs.length ≤ row.length →
    (Emu.writeRow row tmpl k cs).getD (k + j) d = { tmpl with c := cs.getD j ' ' } := by
  induction cs with
  | nil =>
    intro row tmpl d k j hj _
    simp at hj
  | cons c cs2 ih =>
    intro row tmpl d k j hj hb
    simp only [List.length_cons] at hj hb
    cases j with
    | zero =>
      rw [Nat.add_zero, Emu.writeRow,
        Emu.writeRow_getD_lt cs2 _ _ _ _ _ (by omega),
        listGetD_set_self _ _ _ _ (by omega)]
      rfl
    | succ j2 =>
      rw [show k + (j2 + 1) = (k + 1) + j2 from by omega, Emu.writeRow,
        ih _ _ _ _ _ (by omega) (by rw [List.length_set]; omega)]
      rfl

/-- One width-1 character fed to `Handler::input` with `input_needs_wrap`
armed (and `LINE_WRAP` on, not at the scroll-region end): the `WRAPLINE`
flag is inserted on the cell under the cursor, the cursor advances to
column 0 of the next line, the glyph is written there, and the cursor
ends at column 1. -/
theorem Emu.input_width1_wrap (t : Emu.Term) (c : Char)
    (hw : Emu.charWidth c = some 1)
    (hwr : t.input_needs_wrap = true)
    (hlw : t.mode.lineWrap = true)
    (hins : t.mode.insert = false)
    (hch : t.cursor.charsets = {})
    (hoff : t.grid.displayOffset = 0)
    (hsr : t.cursor.point.line + 1 < t.scroll_region.2)
    (hc2 : 1 < t.grid.numCols) :
    t.input c =
      { t with
        grid := ((t.grid.setCell t.cursor.point.line t.cursor.point.col { t.grid.cellAt t.cursor.point.line t.cursor.point.col with flags := { (t.grid.cellAt t.cursor.point.line t.cursor.point.col).flags with wrapline := true } }).setCell (t.cursor.point.line + 1) 0 { t.cursor.template with c := c })
        cursor := { t.cursor with point := ⟨t.cursor.point.line + 1, 1⟩ }
        input_needs_wrap := false } := by
  have hscroll : (if t.auto_scroll then t.scrollDisplayBottom else t) = t := by
    rw [Emu.Term.scrollDisplayBottom]
    rw [show ({ t.grid with displayOffset := 0 } : Emu.Grid) = t.grid from by rw [← hoff]]
    split <;> rfl
  rw [Emu.Term.input, hscroll, hwr, hlw]
  simp only [Bool.not_true, Bool.and_false, Bool.false_eq_true, if_false, if_true, hw]
  rw [if_neg (show ¬(t.scroll_region.2 ≤ t.cursor.point.line + 1) from by omega)]
  rw [hins]
  simp only [Bool.false_and, Bool.false_eq_true, if_false]
  have hmap : (t.cursor.charsets.get t.active_charset).map c = c := by
    rw [hch, Emu.Charsets.get_default]
    rfl
  rw [hmap]
  simp only [show ((1 : Nat) == 0) = false from rfl, show ((1 : Nat) == 2) = false from rfl,
    Bool.false_and, Bool.false_eq_true, if_false]
  rw [Emu.Term.advanceCol]
  split
  next h =>
    rfl
  next h =>
    exact absurd (show (0 : Nat) + 1 < t.grid.numCols from by omega) h

/-- C7: on a fresh `lines`×`cols` terminal (`LINE_WRAP` set by default,
2 ≤ lines, 2 ≤ cols), after writing `cols` printable width-1 characters
starting at column 0 of an empty line the cursor sits at
`(same_line, cols-1)` with `input_needs_wrap = true`; the next printable
character sets `WRAPLINE` on the last cell of that line (whose glyphs are
exactly the written characters), writes its glyph at column 0 of the next
line, and leaves the cursor at column 1 with the wrap flag cleared. -/
theorem wrap_boundary (lines cols : Nat) (cs : List Char) (e : Char)
    (hl : 2 ≤ lines) (hc : 2 ≤ cols) (hlen : cs.length = cols)
    (hw : ∀ c ∈ cs, Emu.charWidth c = some 1) (hwe : Emu.charWidth e = some 1) :
    (((Emu.Term.new lines cols).writeAll cs).cursor.point = ⟨0, cols - 1⟩ ∧
      ((Emu.Term.new lines cols).writeAll cs).input_needs_wrap = true) ∧
    (((((Emu.Term.new lines cols).writeAll cs).input e).grid.cellAt 0 (cols - 1)).flags.wrapline = true) ∧
    (∀ j, j < cols → ((((Emu.Term.new lines cols).writeAll cs).input e).grid.cellAt 0 j).c = cs.getD j ' ') ∧
    (((((Emu.Term.new lines cols).writeAll cs).input e).grid.cellAt 1 0).c = e) ∧
    ((((Emu.Term.new lines cols).writeAll cs).input e).cursor.point = ⟨1, 1⟩) ∧
    ((((Emu.Term.new lines cols).writeAll cs).input e).input_needs_wrap = false) := by
  have hne : cs.isEmpty = false := by
    rw [List.isEmpty_eq_false]
    intro hcseq
    rw [hcseq] at hlen
    simp at hlen
    omega
  have h1 := Emu.writeAll_width1 cs (Emu.Term.new lines cols) hw rfl rfl rfl rfl
    (by simp [Emu.Term.new, Emu.Grid.new]; omega)
    (by simp [Emu.Term.new, Emu.Grid.new]; omega)
  rw [hne] at h1
  simp only [Bool.false_eq_true, if_false] at h1
  have hpoint : ((Emu.Term.new lines cols).writeAll cs).cursor.point =
      (⟨0, cols - 1⟩ : Emu.Point) := by
    rw [h1]
    simp only [Emu.Term.new, Emu.Grid.new]
    rw [show (0 + cs.length) ⊓ (cols - 1) = cols - 1 from by omega]
  have hwrap1 : ((Emu.Term.new lines cols).writeAll cs).input_needs_wrap = true := by
    rw [h1]
    simp only [Emu.Term.new, Emu.Grid.new, decide_eq_true_eq]
    omega
  have h2 := Emu.input_width1_wrap ((Emu.Term.new lines cols).writeAll cs) e hwe
    hwrap1
    (by rw [h1]; rfl)
    (by rw [h1]; rfl)
    (by rw [h1]; rfl)
    (by rw [h1]; rfl)
    (by rw [h1]; show 0 + 1 < lines; omega)
    (by rw [h1]; show 1 < cols; omega)
  refine ⟨⟨hpoint, hwrap1⟩, ?_, ?_, ?_, ?_, ?_⟩
  · rw [h2, h1]
    simp only [Emu.Term.new, Emu.Grid.new, Emu.Grid.cellAt, Emu.Grid.setCell]
    rw [show (0 + cs.length) ⊓ (cols - 1) = cols - 1 from by omega]
    set DC : Emu.Cell := {} with hDC
    set row0 := List.replicate cols DC with hrow0
    set rows0 := List.replicate lines row0 with hrows0
    set W := Emu.writeRow (rows0.getD 0 []) DC 0 cs with hWdef
    have hr0len : rows0.length = lines := by
      rw [hrows0, List.length_replicate]
    have hWlen : W.length = cols := by
      rw [hWdef, Emu.writeRow_length, hrows0, hrow0,
        listGetD_replicate _ _ _ _ (by omega), List.length_replicate]
    have hR1get : ((rows0.set 0 W).getD 0 []) = W :=
      listGetD_set_self _ _ _ _ (by omega)
    rw [hR1get, List.set_set]
    rw [listGetD_set_ne _ _ _ _ _ (by omega : (0 : Nat) + 1 ≠ 0)]
    rw [listGetD_set_self _ _ _ _ (by omega : (0 : Nat) < rows0.length)]
    rw [listGetD_set_self _ _ _ _ (by omega : cols - 1 < W.length)]
  · intro j hj
    rw [h2, h1]
    simp only [Emu.Term.new, Emu.Grid.new, Emu.Grid.cellAt, Emu.Grid.setCell]
    rw [show (0 + cs.length) ⊓ (cols - 1) = cols - 1 from by omega]
    set DC : Emu.Cell := {} with hDC
    set row0 := List.replicate cols DC with hrow0
    set rows0 := List.replicate lines row0 with hrows0
    set W := Emu.writeRow (rows0.getD 0 []) DC 0 cs with hWdef
    have hr0len : rows0.length = lines := by
      rw [hrows0, List.length_replicate]
    have hrow0get : rows0.getD 0 [] = row0 := listGetD_replicate _ _ _ _ (by omega)
    have hWlen : W.length = cols := by
      rw [hWdef, Emu.writeRow_length, hrow0get, hrow0, List.length_replicate]
    have hWget : ∀ j2, j2 < cols → W.getD j2 DC = { DC with c := cs.getD j2 ' ' } := by
      intro j2 hj2
      rw [hWdef, hrow0get]
      have hg := Emu.writeRow_getD cs row0 DC DC 0 j2 (by omega)
        (by rw [hrow0, List.length_replicate]; omega)
      simpa using hg
    have hR1get : ((rows0.set 0 W).getD 0 []) = W :=
      listGetD_set_self _ _ _ _ (by omega)
    rw [hR1get, List.set_set]
    rw [listGetD_set_ne _ _ _ _ _ (by omega : (0 : Nat) + 1 ≠ 0)]
    rw [listGetD_set_self _ _ _ _ (by omega : (0 : Nat) < rows0.length)]
    by_cases hje : j = cols - 1
    · subst hje
      rw [listGetD_set_self _ _ _ _ (by omega : cols - 1 < W.length)]
      show (W.getD (cols - 1) DC).c = cs.getD (cols - 1) ' '
      rw [hWget (cols - 1) (by omega)]
    · rw [listGetD_set_ne _ _ _ _ _ (fun hne2 => hje hne2.symm)]
      rw [hWget j hj]
  · rw [h2, h1]
    simp only [Emu.Term.new, Emu.Grid.new, Emu.Grid.cellAt, Emu.Grid.setCell]
    rw [show (0 + cs.length) ⊓ (cols - 1) = cols - 1 from by omega]
    set DC : Emu.Cell := {} with hDC
    set row0 := List.replicate cols DC with hrow0
    set rows0 := List.replicate lines row0 with hrows0
    set W := Emu.writeRow (rows0.getD 0 []) DC 0 cs with hWdef
    have hr0len : rows0.length = lines := by
      rw [hrows0, List.length_replicate]
    have hR1get : ((rows0.set 0 W).getD 0 []) = W :=
      listGetD_set_self _ _ _ _ (by omega)
    rw [hR1get, List.set_set]
    rw [listGetD_set_self _ _ _ _
      (by rw [List.length_set]; omega : (0 : Nat) + 1 < (rows0.set 0 _).length)]
    rw [listGetD_set_ne _ _ _ _ _ (by omega : (0 : Nat) ≠ 0 + 1)]
    rw [listGetD_replicate _ _ _ _ (by omega : (0 : Nat) + 1 < lines)]
    rw [listGetD_set_self _ _ _ _ (by rw [hrow0, List.length_replicate]; omega)]
  · rw [h2, h1]
    simp only [Emu.Term.new, Emu.Grid.new]
  · rw [h2]

/-- Witness for C7 at the spec's literal scenario: a 3-line, 4-column
grid fed `"abcd"` then `"e"`.  After `"abcd"` the cursor is at `(0,3)`
with `input_needs_wrap`; after `"e"` row 0 ends in a `WRAPLINE` cell,
row 0 column 0 still shows `a`, row 1 column 0 shows `e`, and the cursor
is at `(1,1)`. -/
theorem wrap_boundary_witness :
    (((Emu.Term.new 3 4).writeAll ['a', 'b', 'c', 'd']).cursor.point = ⟨0, 3⟩ ∧
      ((Emu.Term.new 3 4).writeAll ['a', 'b', 'c', 'd']).input_needs_wrap = true) ∧
    (((((Emu.Term.new 3 4).writeAll ['a', 'b', 'c', 'd']).input 'e').grid.cellAt 0 3).flags.wrapline = true) ∧
    (((((Emu.Term.new 3 4).writeAll ['a', 'b', 'c', 'd']).input 'e').grid.cellAt 0 0).c = 'a') ∧
    (((((Emu.Term.new 3 4).writeAll ['a', 'b', 'c', 'd']).input 'e').grid.cellAt 1 0).c = 'e') ∧
    ((((Emu.Term.new 3 4).writeAll ['a', 'b', 'c', 'd']).input 'e').cursor.point = ⟨1, 1⟩) ∧
    ((((Emu.Term.new 3 4).writeAll ['a', 'b', 'c', 'd']).input 'e').input_needs_wrap = false) := by
  obtain ⟨ha, hb, hcc, hd, he2, hf⟩ :=
    wrap_boundary 3 4 ['a', 'b', 'c', 'd'] 'e' (by decide) (by decide) (by decide)
      (by decide) (by decide)
  exact ⟨ha, by simpa using hb, by simpa using hcc 0 (by decide), hd, he2, hf⟩
